import Mathlib

/-!
Verification development for the decaf-ts for-angular-ionic demo application.

This file shallowly embeds the TypeScript functions referenced by the checked
claims and proves (or refutes) the claimed properties about them.  Machine
values are modelled with Nat / String / Option, JavaScript arrays with List,
and asynchronous repository calls with explicit outcome parameters
(Except String _ for calls that may throw).
-/

set_option autoImplicit false

/-! ## JavaScript helpers -/

/-- Embeds a JavaScript runtime value as it occurs in the embedded code:
a string, a nonnegative number, NaN, or undefined. -/
inductive JSValue
  | str (s : String)
  | num (n : Nat)
  | nan
  | undef
deriving DecidableEq

/-- Embeds the JavaScript `Number(x)` conversion for the values arising in the
embedded code: numeric strings of digits parse to their value, the empty string
to 0, other strings and `undefined` to NaN, numbers are unchanged. -/
def jsNumber (v : JSValue) : JSValue :=
  match v with
  | JSValue.str s =>
    if s.isEmpty then JSValue.num 0
    else
      match s.toNat? with
      | some n => JSValue.num n
      | none => JSValue.nan
  | JSValue.num n => JSValue.num n
  | JSValue.nan => JSValue.nan
  | JSValue.undef => JSValue.nan

/-- Embeds JavaScript truthiness of an optional string (`undefined` and the
empty string are falsy, every other string is truthy). -/
def jsStringTruthy (v : Option String) : Bool :=
  match v with
  | none => false
  | some s => !s.isEmpty

/-- Embeds `Array.prototype.slice(start, stop)`: the elements with indices in
[start, stop). -/
def jsSlice {α : Type} (xs : List α) (start stop : Nat) : List α :=
  (xs.take stop).drop start

/-- Embeds `Object.assign(data, single-key-record)` on an association list:
overwrite the value at an existing key, otherwise append the new key. -/
def jsObjectAssign (data : List (String × JSValue)) (k : String) (v : JSValue) :
    List (String × JSValue) :=
  if data.any (fun p => p.1 == k) then
    data.map (fun p => if p.1 == k then (k, v) else p)
  else data ++ [(k, v)]

/-! ## Event name constants -/

/-- Modelled from the spec: the refresh-event constant of the lib/engine
EventConstants enumeration (the enumeration source is not in the snapshot,
only its uses); the exact string is irrelevant to the claims. -/
def EventConstants.REFRESH_EVENT : String := "RefreshEvent"

/-- Modelled from the spec: the click-event constant of the lib/engine
EventConstants enumeration. -/
def EventConstants.CLICK_EVENT : String := "ClickEvent"

/-- Modelled from the spec: the submit-event constant of the lib/engine
EventConstants enumeration. -/
def EventConstants.SUBMIT_EVENT : String := "SubmitEvent"

/-! ## NgxToastComponent (src/unnamed/part_000) -/

/-- Embeds Ionic ToastOptions restricted to the fields the component touches;
a `none` field is an absent property. -/
structure ToastOptions where
  duration : Option Nat := none
  position : Option String := none
  animated : Option Bool := none
deriving DecidableEq

/-- Fully-populated toast configuration resulting from merging with defaults. -/
structure ToastConfig where
  duration : Nat
  position : String
  animated : Bool
deriving DecidableEq

/-- Embeds the DefaulOptions constant of src/unnamed/part_000. -/
def DefaulOptions : ToastConfig :=
  { duration := 3000, position := "top", animated := true }

/-- Embeds `Object.assign(DefaulOptions, options)`: present fields of
`options` override the base configuration. -/
def toastAssign (base : ToastConfig) (o : ToastOptions) : ToastConfig :=
  { duration := o.duration.getD base.duration,
    position := o.position.getD base.position,
    animated := o.animated.getD base.animated }

/-- Embeds the NgxToastComponent state: the options stored by its
constructor. -/
structure NgxToastComponent where
  options : ToastConfig
deriving DecidableEq

/-- Embeds the NgxToastComponent constructor:
`this.options = Object.assign(DefaulOptions, options)`. -/
def NgxToastComponent.init (options : ToastOptions) : NgxToastComponent :=
  { options := toastAssign DefaulOptions options }

/-- Embeds getNgxToastComponent of src/unnamed/part_000: given the module-level
`instance` variable and the call's options, returns the component handed to the
caller and the new value of the module-level variable. -/
def getNgxToastComponent (instance0 : Option NgxToastComponent) (options : ToastOptions) :
    NgxToastComponent × Option NgxToastComponent :=
  match instance0 with
  | none =>
    let c := NgxToastComponent.init options
    (c, some c)
  | some c => (c, some c)

/-- Runs a sequence of getNgxToastComponent calls, threading the module-level
`instance` variable, and collects the returned components in order. -/
def getNgxToastCalls (instance0 : Option NgxToastComponent) :
    List ToastOptions → List NgxToastComponent
  | [] => []
  | o :: rest =>
    let r := getNgxToastComponent instance0 o
    r.1 :: getNgxToastCalls r.2 rest

/-! ## PaginationComponent (src/src/lib/components/crud-field/crud-field.component.ts) -/

/-- Embeds one entry of the pagination `pages` array: `index` is the page
number (null for the ellipsis placeholder), `text` the rendered label. -/
structure PageEntry where
  index : Option Nat
  text : String
deriving DecidableEq

/-- Embeds the inner `getPage` closure of PaginationComponent.getPages: skip
when an entry with the same index already exists, otherwise push the entry,
formatting the text from the index when the index is not null. -/
def PaginationComponent.getPage (pages : List PageEntry) (index : Option Nat) (text : String) :
    List PageEntry :=
  if pages.any (fun p => p.index == index) then pages
  else
    match index with
    | some i =>
      pages ++ [{ index := some i,
                  text := if 10 ≤ i then toString i else ("0") ++ toString i ++ text }]
    | none => pages ++ [{ index := none, text := text }]

/-- Embeds one iteration (page number `i`, 1-based) of the `for` loop in
PaginationComponent.getPages. -/
def PaginationComponent.getPagesStep (total : Nat) (pages : List PageEntry) (i : Nat) :
    List PageEntry :=
  if total ≤ 5 then PaginationComponent.getPage pages (some i) ""
  else if i = 1 ∧ total ≠ 1 then
    PaginationComponent.getPage pages (some i) (if total ≠ total then (" ... ") else (""))
  else if i ≤ total + 1 ∧ total - 1 < i then PaginationComponent.getPage pages (some i) ""
  else if total ≤ i + 1 then
    let pages1 :=
      if i + 1 = total ∧ i ≠ total then PaginationComponent.getPage pages none ("...")
      else pages
    PaginationComponent.getPage pages1 (some i) ""
  else pages

/-- Embeds PaginationComponent.getPages: fold the loop body over
i = 1, ..., total starting from the empty array.  The `current` parameter of
the source only supplies a default and never influences the produced array,
so it is omitted. -/
def PaginationComponent.getPages (total : Nat) : List PageEntry :=
  (List.range total).foldl
    (fun pages k => PaginationComponent.getPagesStep total pages (k + 1)) []

/-- Embeds the PaginationCustomEvent payload emitted through `clickEvent`. -/
structure PaginationEvent where
  name : String
  direction : String
  page : Nat
  component : String
deriving DecidableEq

/-- Embeds the PaginationComponent state after ngOnInit: the total page count
input `data`, the current page, the generated `pages` array, and `last`. -/
structure PaginationState where
  data : Nat
  current : Nat
  pages : List PageEntry
  last : Nat
deriving DecidableEq

/-- Embeds PaginationComponent.ngOnInit for a component initialized with a
total page count and a current page. -/
def PaginationComponent.ngOnInit (total current : Nat) : PaginationState :=
  { data := total, current := current,
    pages := PaginationComponent.getPages total, last := total }

/-- Embeds PaginationComponent.handleClick: update `current` when a truthy
page argument is given, then emit the click event carrying the current page. -/
def PaginationComponent.handleClick (s : PaginationState) (direction : String)
    (page : Option Nat) : PaginationState × PaginationEvent :=
  let s1 :=
    match page with
    | some p => if p ≠ 0 then { s with current := p } else s
    | none => s
  (s1, { name := EventConstants.CLICK_EVENT, direction := direction,
         page := s1.current, component := "PaginationComponent" })

/-- Embeds PaginationComponent.next: increment and emit only when
`current + 1 <= Object.keys(this.pages).length`. -/
def PaginationComponent.next (s : PaginationState) : PaginationState × Option PaginationEvent :=
  let page := s.current + 1
  if page ≤ s.pages.length then
    let r := PaginationComponent.handleClick { s with current := page } "next" none
    (r.1, some r.2)
  else (s, none)

/-! ## ModelPage (src/src/app/pages/crud/crud.page.ts, second document) -/

/-- Embeds the CrudOperations operation keys used by the model page. -/
inductive CrudOperation
  | create
  | read
  | update
  | delete
deriving DecidableEq

/-- Embeds a model instance produced by `Model.build(data, modelName)` of the
external decorator-validation library: the built record keeps the supplied
data and the model name. -/
structure BuiltModel where
  fields : List (String × JSValue)
  modelName : String
deriving DecidableEq

/-- Embeds `Model.build` as an abstract constructor pairing the data with the
model name. -/
def Model.build (data : List (String × JSValue)) (name : String) : BuiltModel :=
  { fields := data, modelName := name }

/-- Embeds the ModelPage routed inputs used by handleSubmit / parseData /
handleGet: the routed operation, model name, optional routed uid, and the
repository primary-key name. -/
structure ModelPageState where
  operation : CrudOperation
  modelName : String
  uid : Option String
  pk : String
deriving DecidableEq

/-- Embeds ModelPage.parseData: for non-delete operations build the model from
the form data, assigning the routed uid (converted with `Number` when the
primary key is "id") to the primary-key field when the uid is truthy; for
delete return the converted uid value itself. -/
def ModelPage.parseData (st : ModelPageState) (data : List (String × JSValue)) :
    Sum BuiltModel JSValue :=
  let uid0 : JSValue :=
    match st.uid with
    | none => JSValue.undef
    | some s => JSValue.str s
  let uidv : JSValue := if st.pk = "id" then jsNumber uid0 else uid0
  if st.operation ≠ CrudOperation.delete then
    Sum.inl (Model.build
      (if jsStringTruthy st.uid then jsObjectAssign data st.pk uidv else data) st.modelName)
  else Sum.inr uidv

/-- Records which repository method ModelPage.handleSubmit invokes and with
which argument (a built model or a raw uid value). -/
inductive RepoCall
  | createC (arg : Sum BuiltModel JSValue)
  | updateC (arg : Sum BuiltModel JSValue)
  | deleteC (arg : Sum BuiltModel JSValue)
deriving DecidableEq

/-- Embeds the repository dispatch of ModelPage.handleSubmit:
`operation === CREATE ? repo.create(data) : operation === UPDATE ?
repo.update(data) : repo.delete(data)` with `data = parseData(...)`. -/
def ModelPage.handleSubmitCall (st : ModelPageState) (data : List (String × JSValue)) :
    RepoCall :=
  let d := ModelPage.parseData st data
  if st.operation = CrudOperation.create then RepoCall.createC d
  else if st.operation = CrudOperation.update then RepoCall.updateC d
  else RepoCall.deleteC d

/-- Observable side effects of the embedded page / component code: console
logging, toast notifications, navigation, and the repository refresh
notification. -/
inductive PageEffect
  | logError (msg : String)
  | logWarn (msg : String)
  | toastInform
  | toastError
  | navBack
  | repoRefresh
deriving DecidableEq

/-- Recognizes the toast-notification effects. -/
def isToastEffect (e : PageEffect) : Bool :=
  match e with
  | PageEffect.toastInform => true
  | PageEffect.toastError => true
  | _ => false

/-- Embeds the control flow of ModelPage.handleSubmit around the repository
call, whose outcome is the parameter.  For create and update the call is
awaited: a truthy result triggers the repository refresh, back navigation and
an informational toast, and a thrown error is caught by the surrounding try,
logged and rethrown (the middle component is the outcome propagated to the
caller).  For delete the source does not await repo.delete, so `result` is
the pending promise, which is truthy: the success effects fire regardless of
the call's outcome, and a rejection is neither caught nor logged here - it
escapes as an unhandled promise rejection, recorded in the last component. -/
def ModelPage.handleSubmitRun (op : CrudOperation) (repoResult : Except String Bool) :
    List PageEffect × Except String Unit × Option String :=
  if op = CrudOperation.create ∨ op = CrudOperation.update then
    match repoResult with
    | Except.ok r =>
      if r then
        ([PageEffect.repoRefresh, PageEffect.navBack, PageEffect.toastInform],
         Except.ok (), none)
      else ([], Except.ok (), none)
    | Except.error e => ([PageEffect.logError e], Except.error e, none)
  else
    ([PageEffect.repoRefresh, PageEffect.navBack, PageEffect.toastInform],
     Except.ok (),
     match repoResult with
     | Except.ok _ => none
     | Except.error e => some e)

/-- Embeds ModelPage.handleGet: when the uid is falsy it warns, navigates back
to the last page and rejects (second component `none`); otherwise it invokes
`repository.read(Number(uid))`, recorded as the read argument. -/
def ModelPage.handleGet (uid : Option String) : List PageEffect × Option JSValue :=
  if jsStringTruthy uid = false then
    ([PageEffect.logWarn ("No key passed to model page read operation, backing to last page"),
      PageEffect.navBack], none)
  else ([], some (jsNumber (JSValue.str (uid.getD ("")))))

/-- Embeds ModelPage.refresh: for read, update and delete operations it awaits
handleGet(uid) inside a try/catch whose catch logs the rejection; for create
it does nothing.  The second component is the argument of the repository read
that was performed, if any. -/
def ModelPage.refreshRun (op : CrudOperation) (uid : Option String) :
    List PageEffect × Option JSValue :=
  match op with
  | CrudOperation.read | CrudOperation.update | CrudOperation.delete =>
    let r := ModelPage.handleGet uid
    match r.2 with
    | none => (r.1 ++ [PageEffect.logError ("undefined")], none)
    | some a => (r.1, some a)
  | CrudOperation.create => ([], none)

/-! ## CrudFormComponent (src/src/lib/components/crud-form/crud-form.component.ts) -/

/-- Embeds one control of an Angular FormGroup as used by the crud form: a
field name, its value, and whether the field passes its validators. -/
structure FormField where
  name : String
  value : JSValue
  valid : Bool
deriving DecidableEq

/-- Modelled from the spec: NgxFormService.validateFields (lib/engine, not in
the snapshot) reports whether every field of the form group passes
validation. -/
def NgxFormService.validateFields (fg : List FormField) : Bool :=
  fg.all (fun f => f.valid)

/-- Modelled from the spec: NgxFormService.getFormData (lib/engine, not in the
snapshot) returns the form group's data as a record of field values. -/
def NgxFormService.getFormData (fg : List FormField) : List (String × JSValue) :=
  fg.map (fun f => (f.name, f.value))

/-- Embeds the BaseCustomEvent payload emitted through `submitEvent`. -/
structure SubmitEventData where
  data : List (String × JSValue)
  component : String
  name : String
deriving DecidableEq

/-- Outcome of CrudFormComponent.submit: either the early `return false` with
no emission, or the emitted submit event. -/
inductive SubmitResult
  | noEmit
  | emitted (ev : SubmitEventData)
deriving DecidableEq

/-- Embeds CrudFormComponent.submit (DOM-event bookkeeping aside): return
false without emitting when validation fails, otherwise emit the submit event
carrying the form data. -/
def CrudFormComponent.submit (fg : List FormField) : SubmitResult :=
  if !(NgxFormService.validateFields fg) then SubmitResult.noEmit
  else SubmitResult.emitted
    { data := NgxFormService.getFormData fg,
      component := "FormReactiveComponent",
      name := EventConstants.SUBMIT_EVENT }

/-! ## ListComponent (src/unnamed/part_010) -/

/-- Embeds the two list display modes. -/
inductive ListType
  | infinite
  | paginated
deriving DecidableEq

/-- Embeds the ListComponent fields involved in refresh / getFromRequest /
getMoreData, with the source's initializers as defaults (an undefined
`items`/`data` array is modelled as the empty list, which the source treats
identically through `|| []` and `?.length`). -/
structure ListState (α : Type) where
  type : ListType := ListType.infinite
  page : Nat := 1
  pages : Nat := 0
  start : Nat := 0
  limit : Nat := 10
  items : List α := []
  data : List α := []
  loadMoreData : Bool := true
  searchValue : Option String := none
  refreshing : Bool := false
deriving DecidableEq

/-- Embeds ListComponent.getMoreData: disable loadMoreData when the total
length fits one page, otherwise set `pages` to floor(length/limit) plus one
when the floor undershoots, then disable loadMoreData when that count is 1. -/
def ListComponent.getMoreData {α : Type} (s : ListState α) (length : Nat) : ListState α :=
  if length ≤ s.limit then { s with loadMoreData := false }
  else
    let pages0 := length / s.limit
    let pages1 := if pages0 * s.limit < length then pages0 + 1 else pages0
    if pages1 = 1 then { s with pages := pages1, loadMoreData := false }
    else { s with pages := pages1 }

/-- Embeds ListComponent.getFromRequest for a configuration without a custom
mapper (so parseResult returns the request array unchanged after calling
getMoreData on its length).  The `source` parameter models the configured
source function by its returned array (`none` when no source is configured),
`matchFn` models the string matching of parseSearchResults on an item, and
the result triple is the new state, the returned array, and the console
effects. -/
def ListComponent.getFromRequest {α : Type} (s : ListState α) (matchFn : α → String → Bool)
    (source : Option (List α)) (force : Bool) (start stop : Nat) :
    ListState α × List α × List PageEffect :=
  if s.data.isEmpty || force || jsStringTruthy s.searchValue then
    if !(jsStringTruthy s.searchValue) then
      if source.isNone && s.data.isEmpty then
        (s, [], [PageEffect.logWarn ("No data and source passed to infinite list")])
      else
        let request : List α :=
          match source with
          | some arr => arr
          | none => []
        let s1 := ListComponent.getMoreData s request.length
        let s2 := { s1 with data := request }
        let s3 := { s2 with
          items :=
            if s2.type = ListType.infinite then s2.items ++ jsSlice s2.data start stop
            else jsSlice request start stop }
        let s4 :=
          if s3.loadMoreData = true ∧ s3.type = ListType.paginated then
            ListComponent.getMoreData s3 s3.data.length
          else s3
        (s4, s4.data, [])
    else
      let filtered := s.data.filter (fun it => matchFn it (s.searchValue.getD ("")))
      let s1 := { s with data := filtered, items := filtered }
      let s2 :=
        if s1.loadMoreData = true ∧ s1.type = ListType.paginated then
          ListComponent.getMoreData s1 s1.data.length
        else s1
      (s2, s2.data, [])
  else
    let s1 :=
      if s.loadMoreData = true ∧ s.type = ListType.paginated then
        ListComponent.getMoreData s s.data.length
      else s
    (s1, s1.data, [])

/-- Embeds the RefreshEvent payload emitted through `refreshEvent`. -/
structure RefreshEvent (α : Type) where
  name : String
  data : List α
  component : String
deriving DecidableEq

/-- Embeds ListComponent.refreshEventEmit: default the data argument to the
currently displayed items and emit the refresh event (an undefined items array
becomes the empty list, as through `data || []` in the source). -/
def ListComponent.refreshEventEmit {α : Type} (s : ListState α) (d : Option (List α)) :
    RefreshEvent α :=
  let d0 :=
    match d with
    | none => s.items
    | some x => x
  { name := EventConstants.REFRESH_EVENT, data := d0, component := "ListComponent" }

/-- Embeds ListComponent.refresh for the request-backed configuration (no
model bound, so the data comes from getFromRequest): set the refreshing flag,
compute the slice bounds (`start` from the current page, the end index capping
the per-page limit at 12), fetch, assign the returned array to `data`, emit
the refresh event, then perform the infinite/paginated page bookkeeping (the
delayed scroll-completion and refreshing-reset timers are not modelled). -/
def ListComponent.refresh {α : Type} (s : ListState α) (matchFn : α → String → Bool)
    (source : Option (List α)) (force : Bool) :
    ListState α × List (RefreshEvent α) × List PageEffect :=
  let s0 := { s with refreshing := true }
  let start := if 1 < s0.page then (s0.page - 1) * s0.limit else s0.start
  let stop := s0.page * (if 12 < s0.limit then 12 else s0.limit)
  let r := ListComponent.getFromRequest s0 matchFn source force start stop
  let s2 := { r.1 with data := r.2.1 }
  let ev := ListComponent.refreshEventEmit s2 none
  let s3 :=
    if s2.type = ListType.infinite then
      if s2.page = s2.pages then { s2 with loadMoreData := false }
      else { s2 with page := s2.page + 1, refreshing := false }
    else s2
  (s3, [ev], r.2.2)

/-- Embeds the try/catch skeleton of ListComponent.getFromModel for the
no-search path: the local `data` variable starts as a copy of the previous
data; the repository/paginator interaction is abstracted by its outcome (the
parsed request array, or the thrown error message); on success `data` becomes
the concatenation (infinite mode) or the replacement (paginated mode), on
error the catch logs and `data` keeps the initial copy, with no toast and no
rethrow. -/
def ListComponent.getFromModelOutcome {α : Type} (prevData : List α) (typeIsInfinite : Bool)
    (repoOutcome : Except String (List α)) : List α × List PageEffect :=
  match repoOutcome with
  | Except.ok request =>
    ((if typeIsInfinite then prevData ++ request else request), [])
  | Except.error e => (prevData, [PageEffect.logError e])

/-! ## Debounce (ListComponent.ngOnInit, SearchbarComponent) -/

/-- Embeds the 100 ms window of `debounceTime(100)` applied to the list item
click subject in ListComponent.ngOnInit. -/
def ListComponent.clickDebounceTime : Nat := 100

/-- Embeds the SearchbarComponent `debounce` input default of 500 ms. -/
def SearchbarComponent.debounce : Nat := 500

/-- Modelled from the spec: the rxjs debounceTime operator (and the Ionic
searchbar debounce, both external libraries) on a timestamped event sequence
with nondecreasing timestamps: an event is delivered unless the next event
arrives strictly within the window after it. -/
def debounceTime {α : Type} (w : Nat) : List (Nat × α) → List (Nat × α)
  | [] => []
  | [e] => [e]
  | e :: f :: rest =>
    if f.1 < e.1 + w then debounceTime w (f :: rest)
    else e :: debounceTime w (f :: rest)

/-- A burst: every event of the sequence arrives strictly within the debounce
window after its predecessor. -/
def burstWithin {α : Type} (w : Nat) : List (Nat × α) → Bool
  | [] => true
  | [_] => true
  | a :: b :: rest => decide (b.1 < a.1 + w) && burstWithin w (b :: rest)

/-- The event timestamps are nondecreasing. -/
def timeSorted {α : Type} : List (Nat × α) → Bool
  | [] => true
  | [_] => true
  | a :: b :: rest => decide (a.1 ≤ b.1) && timeSorted (b :: rest)

/-! ## Theorems -/

theorem getNgxToastCalls_some (c : NgxToastComponent) (opts : List ToastOptions) :
    getNgxToastCalls (some c) opts = List.replicate opts.length c := by
  induction opts with
  | nil => rfl
  | cons o rest ih =>
    simp [getNgxToastCalls, getNgxToastComponent, ih, List.replicate_succ]

/-- C9: getNgxToastComponent is a singleton factory: every call of a call
sequence starting from an uninitialized module instance returns the component
constructed by the first call, so the options of every later call have no
effect on the returned instance nor on subsequent toast behaviour. -/
theorem c9_toast_singleton (o : ToastOptions) (rest : List ToastOptions) :
    getNgxToastCalls none (o :: rest)
      = List.replicate (rest.length + 1) (NgxToastComponent.init o) := by
  simp [getNgxToastCalls, getNgxToastComponent, getNgxToastCalls_some,
    List.replicate_succ]

/-- C6: CrudFormComponent.submit emits a submit event exactly when every field
of the form group passes validation; on failure it emits nothing, on success
the event carries the form group's data and the submit-event name. -/
theorem c6_submit_iff_valid (fg : List FormField) :
    ((∃ ev, CrudFormComponent.submit fg = SubmitResult.emitted ev)
        ↔ ∀ f ∈ fg, f.valid = true)
    ∧ CrudFormComponent.submit fg
      = (if NgxFormService.validateFields fg then
          SubmitResult.emitted
            { data := NgxFormService.getFormData fg,
              component := "FormReactiveComponent",
              name := EventConstants.SUBMIT_EVENT }
        else SubmitResult.noEmit) := by
  have hall : NgxFormService.validateFields fg = true ↔ ∀ f ∈ fg, f.valid = true := by
    simp [NgxFormService.validateFields, List.all_eq_true]
  have h2 : CrudFormComponent.submit fg
      = (if NgxFormService.validateFields fg then
          SubmitResult.emitted
            { data := NgxFormService.getFormData fg,
              component := "FormReactiveComponent",
              name := EventConstants.SUBMIT_EVENT }
        else SubmitResult.noEmit) := by
    by_cases h : NgxFormService.validateFields fg <;>
      simp [CrudFormComponent.submit, h]
  refine ⟨?_, h2⟩
  rw [h2]
  by_cases h : NgxFormService.validateFields fg
  · rw [if_pos h]
    exact ⟨fun _ => hall.mp h, fun _ => ⟨_, rfl⟩⟩
  · rw [if_neg h]
    constructor
    · rintro ⟨ev, hev⟩
      simp at hev
    · intro hv
      exact absurd (hall.mpr hv) h

/-- C3: the repository operation invoked by a model page submit matches the
routed operation: create is called with the model built from the form data,
update with the model built from the form data with the routed uid (converted
with Number when the primary key is "id") assigned to the primary-key field,
and delete with the uid value alone rather than a model. -/
theorem c3_submit_matches_operation (modelName pk : String)
    (data : List (String × JSValue)) (u : String) (hu : u ≠ "") :
    ModelPage.handleSubmitCall ⟨CrudOperation.create, modelName, none, pk⟩ data
        = RepoCall.createC (Sum.inl (Model.build data modelName))
    ∧ ModelPage.handleSubmitCall ⟨CrudOperation.update, modelName, some u, pk⟩ data
        = RepoCall.updateC (Sum.inl (Model.build
            (jsObjectAssign data pk
              (if pk = "id" then jsNumber (JSValue.str u) else JSValue.str u)) modelName))
    ∧ ModelPage.handleSubmitCall ⟨CrudOperation.delete, modelName, some u, pk⟩ data
        = RepoCall.deleteC (Sum.inr
            (if pk = "id" then jsNumber (JSValue.str u) else JSValue.str u)) := by
  have hie : u.isEmpty = false := by
    by_contra hx
    rw [Bool.not_eq_false] at hx
    exact hu ((String.isEmpty_iff u).mp hx)
  refine ⟨?_, ?_, ?_⟩ <;>
    simp [ModelPage.handleSubmitCall, ModelPage.parseData, jsStringTruthy, hie]

theorem c3_witness :
    ModelPage.handleSubmitCall ⟨CrudOperation.create, "EmployeeModel", none, "id"⟩
        [("name", JSValue.str ("a"))]
      = RepoCall.createC (Sum.inl (Model.build [("name", JSValue.str ("a"))] "EmployeeModel"))
    ∧ ModelPage.handleSubmitCall ⟨CrudOperation.update, "EmployeeModel", some ("2"), "id"⟩
        [("name", JSValue.str ("a"))]
      = RepoCall.updateC (Sum.inl (Model.build
          (jsObjectAssign [("name", JSValue.str ("a"))] "id"
            (if ("id" : String) = "id" then jsNumber (JSValue.str ("2")) else JSValue.str ("2")))
          "EmployeeModel"))
    ∧ ModelPage.handleSubmitCall ⟨CrudOperation.delete, "EmployeeModel", some ("2"), "id"⟩
        [("name", JSValue.str ("a"))]
      = RepoCall.deleteC (Sum.inr
          (if ("id" : String) = "id" then jsNumber (JSValue.str ("2")) else JSValue.str ("2"))) :=
  c3_submit_matches_operation ("EmployeeModel") ("id") [("name", JSValue.str ("a"))] ("2")
    (by decide)

/-- C4 counterexample: when the repository call of ModelPage.handleSubmit
throws on a create, the catch block only logs: no toast notification is
produced and the error is rethrown (it escapes the page); and on a delete the
call is not awaited, so its rejection is never caught or logged at the page
(it escapes as an unhandled promise rejection) while the success toast fires
regardless - contradicting the claim that every repository error is caught,
logged and produces a toast, with none escaping. -/
theorem c4_counterexample :
    (ModelPage.handleSubmitRun CrudOperation.create (Except.error ("db failure"))).1
        = [PageEffect.logError ("db failure")]
    ∧ ((ModelPage.handleSubmitRun CrudOperation.create (Except.error ("db failure"))).1.all
        (fun e => !(isToastEffect e))) = true
    ∧ (ModelPage.handleSubmitRun CrudOperation.create (Except.error ("db failure"))).2.1
        = Except.error ("db failure")
    ∧ (ModelPage.handleSubmitRun CrudOperation.delete (Except.error ("db failure"))).2.2
        = some ("db failure")
    ∧ ((ModelPage.handleSubmitRun CrudOperation.delete
          (Except.error ("db failure"))).1.contains (PageEffect.logError ("db failure")))
        = false
    ∧ ((ModelPage.handleSubmitRun CrudOperation.delete (Except.error ("db failure"))).1.any
        (fun e => isToastEffect e)) = true :=
  ⟨rfl, rfl, rfl, rfl, rfl, rfl⟩

/-- C4 amended: errors thrown by awaited repository calls (create and update
submits, list fetches) are caught at the page/component level and logged,
with no toast: the list component falls back to the previously accumulated
(possibly empty) data, and the model page's submit handler rethrows the error
and shows a toast (with back navigation and a repository refresh) only on a
successful submit; the delete submit, however, is not awaited, so its
rejection is neither caught nor logged there and the success toast and
navigation fire regardless of its outcome. -/
theorem c4_amended (op : CrudOperation) (e : String) (prevData : List Nat) (isInf : Bool) :
    ((op = CrudOperation.create ∨ op = CrudOperation.update) →
      ModelPage.handleSubmitRun op (Except.error e)
        = ([PageEffect.logError e], Except.error e, none)
      ∧ ModelPage.handleSubmitRun op (Except.ok true)
        = ([PageEffect.repoRefresh, PageEffect.navBack, PageEffect.toastInform],
           Except.ok (), none))
    ∧ (op = CrudOperation.delete →
      ModelPage.handleSubmitRun op (Except.error e)
        = ([PageEffect.repoRefresh, PageEffect.navBack, PageEffect.toastInform],
           Except.ok (), some e))
    ∧ ListComponent.getFromModelOutcome prevData isInf (Except.error e)
        = (prevData, [PageEffect.logError e]) := by
  refine ⟨?_, ?_, rfl⟩
  · rintro (h | h) <;> subst h <;> exact ⟨rfl, rfl⟩
  · intro h
    subst h
    rfl

theorem c4_witness :
    ModelPage.handleSubmitRun CrudOperation.create (Except.error ("db failure"))
      = ([PageEffect.logError ("db failure")], Except.error ("db failure"), none)
    ∧ ModelPage.handleSubmitRun CrudOperation.delete (Except.error ("db failure"))
      = ([PageEffect.repoRefresh, PageEffect.navBack, PageEffect.toastInform],
         Except.ok (), some ("db failure")) :=
  ⟨((c4_amended CrudOperation.create ("db failure") [] false).1 (Or.inl rfl)).1,
   (c4_amended CrudOperation.delete ("db failure") [] false).2.1 rfl⟩

/-- C5: for a read, update or delete operation with a missing (absent or
empty) routed uid, the model page navigates back and performs no repository
read; with a present uid, the repository read is invoked with the uid
converted to a number. -/
theorem c5_missing_uid_navigates_back (op : CrudOperation) (uid : Option String)
    (hop : op = CrudOperation.read ∨ op = CrudOperation.update ∨ op = CrudOperation.delete) :
    (jsStringTruthy uid = false →
      (ModelPage.refreshRun op uid).2 = none
      ∧ PageEffect.navBack ∈ (ModelPage.refreshRun op uid).1)
    ∧ (∀ s, uid = some s → s ≠ "" →
      ModelPage.refreshRun op uid = ([], some (jsNumber (JSValue.str s)))) := by
  have main : ∀ op2, (op2 = CrudOperation.read ∨ op2 = CrudOperation.update
      ∨ op2 = CrudOperation.delete) →
      (jsStringTruthy uid = false →
        (ModelPage.refreshRun op2 uid).2 = none
        ∧ PageEffect.navBack ∈ (ModelPage.refreshRun op2 uid).1)
      ∧ (∀ s, uid = some s → s ≠ "" →
        ModelPage.refreshRun op2 uid = ([], some (jsNumber (JSValue.str s)))) := by
    intro op2 hop2
    constructor
    · intro hf
      rcases hop2 with h | h | h <;> subst h <;>
        simp [ModelPage.refreshRun, ModelPage.handleGet, hf]
    · intro s hs hne
      subst hs
      have hie : s.isEmpty = false := by
        by_contra hx
        rw [Bool.not_eq_false] at hx
        exact hne ((String.isEmpty_iff s).mp hx)
      have ht : jsStringTruthy (some s) = true := by
        simp [jsStringTruthy, hie]
      rcases hop2 with h | h | h <;> subst h <;>
        simp [ModelPage.refreshRun, ModelPage.handleGet, ht]
  exact main op hop

theorem c5_witness :
    ModelPage.refreshRun CrudOperation.read (some ("2"))
      = ([], some (jsNumber (JSValue.str ("2")))) :=
  (c5_missing_uid_navigates_back CrudOperation.read (some ("2")) (Or.inl rfl)).2 ("2") rfl
    (by decide)

theorem ceil_div_aux (l n : Nat) (hl : 0 < l) (h : l < n) :
    ((n / l * l < n) ↔ 0 < n % l)
    ∧ (n + l - 1) / l = (if 0 < n % l then n / l + 1 else n / l)
    ∧ 2 ≤ (n + l - 1) / l := by
  have hn : l * (n / l) + n % l = n := Nat.div_add_mod n l
  have hrl : n % l < l := Nat.mod_lt n hl
  have hcomm : n / l * l = l * (n / l) := Nat.mul_comm _ _
  have hiff : (n / l * l < n) ↔ 0 < n % l := by
    rw [hcomm]
    omega
  have hq1 : 1 ≤ n / l := by
    by_contra hq
    push_neg at hq
    interval_cases h2 : n / l
    · omega
  rcases Nat.eq_zero_or_pos (n % l) with h0 | hpos2
  · have hq2 : 2 ≤ n / l := by
      by_contra hq
      push_neg at hq
      have : n / l = 1 := by omega
      rw [this] at hn
      omega
    have h1 : n + l - 1 = (l - 1) + (n / l) * l := by
      rw [hcomm]
      omega
    refine ⟨hiff, ?_, ?_⟩ <;>
      rw [h1, Nat.add_mul_div_right _ _ hl, Nat.div_eq_of_lt (by omega)]
    · simp [h0]
    · omega
  · have h1 : n + l - 1 = (n % l - 1) + (n / l + 1) * l := by
      rw [Nat.add_mul, Nat.one_mul, hcomm]
      omega
    refine ⟨hiff, ?_, ?_⟩ <;>
      rw [h1, Nat.add_mul_div_right _ _ hl, Nat.div_eq_of_lt (by omega)]
    · simp [hpos2]
    · omega

/-- C10: with a positive configured limit, getMoreData(length) disables
loadMoreData and leaves the pages count unchanged when the length fits one
page; otherwise it sets the pages count to the ceiling of length/limit, which
is at least 2, so the single-page branch that would disable loadMoreData is
unreachable and loadMoreData is left unchanged. -/
theorem c10_getMoreData {α : Type} (s : ListState α) (n : Nat) (hpos : 0 < s.limit) :
    (n ≤ s.limit → ListComponent.getMoreData s n = { s with loadMoreData := false })
    ∧ (s.limit < n →
        ListComponent.getMoreData s n = { s with pages := (n + s.limit - 1) / s.limit }
        ∧ 2 ≤ (n + s.limit - 1) / s.limit) := by
  constructor
  · intro hle
    simp [ListComponent.getMoreData, hle]
  · intro hlt
    obtain ⟨hiff, hceil, h2⟩ := ceil_div_aux s.limit n hpos hlt
    have hnle : ¬ (n ≤ s.limit) := by omega
    have hval : (if n / s.limit * s.limit < n then n / s.limit + 1 else n / s.limit)
        = (n + s.limit - 1) / s.limit := by
      rw [hceil]
      by_cases hr : 0 < n % s.limit
      · rw [if_pos (hiff.mpr hr), if_pos hr]
      · rw [if_neg (fun hc => hr (hiff.mp hc)), if_neg hr]
    constructor
    · simp only [ListComponent.getMoreData, if_neg hnle, hval,
        if_neg (by omega : ¬ (n + s.limit - 1) / s.limit = 1)]
    · exact h2

theorem c10_witness :
    ListComponent.getMoreData ({} : ListState Nat) 5
        = { ({} : ListState Nat) with loadMoreData := false }
    ∧ ListComponent.getMoreData ({} : ListState Nat) 25
        = { ({} : ListState Nat) with pages := (25 + 10 - 1) / 10 }
    ∧ 2 ≤ (25 + 10 - 1) / 10 :=
  ⟨(c10_getMoreData ({} : ListState Nat) 5 (by decide)).1 (by decide),
   ((c10_getMoreData ({} : ListState Nat) 25 (by decide)).2 (by decide)).1,
   ((c10_getMoreData ({} : ListState Nat) 25 (by decide)).2 (by decide)).2⟩

/-- C2 counterexample: a pagination initialized with 12 pages and the current
page at 4 neither advances nor emits on next(), although the next page 5 does
not exceed the total of 12 pages: the guard compares against the length of
the truncated displayed pages array (4 entries), not the total page count. -/
theorem c2_counterexample :
    (PaginationComponent.next (PaginationComponent.ngOnInit 12 4)).2 = none
    ∧ (PaginationComponent.next (PaginationComponent.ngOnInit 12 4)).1.current = 4
    ∧ 4 + 1 ≤ 12 := by
  refine ⟨?_, ?_, by decide⟩ <;> rfl

/-- C2 amended: next() increments the current page and emits a click event
with direction next carrying the new page if and only if current+1 does not
exceed the length of the generated pages array (which equals the total page
count only when the total is at most 5); otherwise it leaves the current page
unchanged and emits nothing. -/
theorem c2_next_amended (total current : Nat) :
    (current + 1 ≤ (PaginationComponent.getPages total).length →
      PaginationComponent.next (PaginationComponent.ngOnInit total current)
        = ({ PaginationComponent.ngOnInit total current with current := current + 1 },
           some { name := EventConstants.CLICK_EVENT, direction := "next",
                  page := current + 1, component := "PaginationComponent" }))
    ∧ ((PaginationComponent.getPages total).length < current + 1 →
      PaginationComponent.next (PaginationComponent.ngOnInit total current)
        = (PaginationComponent.ngOnInit total current, none))
    ∧ (total ≤ 5 → (PaginationComponent.getPages total).length = total) := by
  refine ⟨?_, ?_, ?_⟩
  · intro hle
    simp [PaginationComponent.next, PaginationComponent.handleClick,
      PaginationComponent.ngOnInit]
    exact hle
  · intro hlt
    have hnle : ¬ (current + 1 ≤ (PaginationComponent.ngOnInit total current).pages.length) := by
      simp only [PaginationComponent.ngOnInit]
      omega
    simp [PaginationComponent.next, hnle]
    simpa [PaginationComponent.ngOnInit] using hlt
  · intro h5
    interval_cases total <;> rfl

theorem c2_witness :
    PaginationComponent.next (PaginationComponent.ngOnInit 12 1)
      = ({ PaginationComponent.ngOnInit 12 1 with current := 2 },
         some { name := EventConstants.CLICK_EVENT, direction := "next",
                page := 2, component := "PaginationComponent" }) :=
  (c2_next_amended 12 1).1 (by decide)

/-- C7: every completed list refresh emits exactly one refresh event, whose
name is the refresh-event constant, whose data equals the items held for
display after the refresh, and whose component field is the list component's
name. -/
theorem c7_refresh_emits_one_event {α : Type} (s : ListState α)
    (matchFn : α → String → Bool) (source : Option (List α)) (force : Bool) :
    (ListComponent.refresh s matchFn source force).2.1
      = [{ name := EventConstants.REFRESH_EVENT,
           data := (ListComponent.refresh s matchFn source force).1.items,
           component := "ListComponent" }] := by
  unfold ListComponent.refresh ListComponent.refreshEventEmit
  dsimp only
  repeat' split
  all_goals rfl

theorem getMoreData_items {α : Type} (s : ListState α) (n : Nat) :
    (ListComponent.getMoreData s n).items = s.items := by
  unfold ListComponent.getMoreData
  dsimp only
  repeat' split
  all_goals rfl

theorem getMoreData_data {α : Type} (s : ListState α) (n : Nat) :
    (ListComponent.getMoreData s n).data = s.data := by
  unfold ListComponent.getMoreData
  dsimp only
  repeat' split
  all_goals rfl

theorem getMoreData_type {α : Type} (s : ListState α) (n : Nat) :
    (ListComponent.getMoreData s n).type = s.type := by
  unfold ListComponent.getMoreData
  dsimp only
  repeat' split
  all_goals rfl

theorem getMoreData_page {α : Type} (s : ListState α) (n : Nat) :
    (ListComponent.getMoreData s n).page = s.page := by
  unfold ListComponent.getMoreData
  dsimp only
  repeat' split
  all_goals rfl

theorem take_append_slice {α : Type} (full : List α) (a b : Nat) (hab : a ≤ b) :
    full.take a ++ jsSlice full a b = full.take b := by
  unfold jsSlice
  have h1 : (full.take b).take a = full.take a := by
    rw [List.take_take, Nat.min_eq_left hab]
  calc full.take a ++ (full.take b).drop a
      = (full.take b).take a ++ (full.take b).drop a := by rw [h1]
    _ = full.take b := List.take_append_drop _ _

theorem getFromRequest_items {α : Type} (s : ListState α) (matchFn : α → String → Bool)
    (full : List α) (force : Bool) (start stop : Nat)
    (hsearch : s.searchValue = none) (hfetch : s.data = [] ∨ force = true) :
    (ListComponent.getFromRequest s matchFn (some full) force start stop).1.items
      = (if s.type = ListType.infinite then s.items ++ jsSlice full start stop
         else jsSlice full start stop) := by
  have hcond : (s.data.isEmpty || force || jsStringTruthy s.searchValue) = true := by
    rcases hfetch with h | h <;> simp [h, hsearch, jsStringTruthy]
  unfold ListComponent.getFromRequest
  rw [hsearch] at hcond ⊢
  rw [if_pos hcond]
  simp only [jsStringTruthy, Bool.not_false, if_true, Option.isNone_some,
    Bool.false_and, Bool.false_eq_true, if_false]
  split <;> simp [getMoreData_items, getMoreData_type, getMoreData_data]

/-- C1 counterexample: a paginated list with configured limit 13 on page 1
refreshed from a request source of 13 items displays only the first 12 items,
not the claimed slice from index 0 to 13: the refresh end index caps the
per-page limit at 12. -/
theorem c1_counterexample :
    (ListComponent.refresh ({ type := ListType.paginated, limit := 13 } : ListState Nat)
        (fun _ _ => false) (some (List.range 13)) true).1.items = List.range 12
    ∧ (ListComponent.refresh ({ type := ListType.paginated, limit := 13 } : ListState Nat)
        (fun _ _ => false) (some (List.range 13)) true).1.items
      ≠ jsSlice (List.range 13) ((1 - 1) * 13) (1 * 13) := by
  decide

/-- C1 amended: for a request-backed list with configured limit at most 12,
start index 0 and no active search, after every completed refresh that
fetches - the initial load with no cached data, or any forced refresh
(pull-to-refresh, pagination events, infinite-scroll loads) over cached
data - on page >= 1 the displayed items are, in paginated mode, exactly the
slice of the full result set from (page-1)*limit up to page*limit, and in
infinite mode (when the previously displayed items are the prefix of length
(page-1)*limit) the prefix of the full result set of length at most
page*limit; for limits above 12 the refresh end index is capped at page*12. -/
theorem c1_slice_amended {α : Type} (s : ListState α) (matchFn : α → String → Bool)
    (full : List α) (force : Bool)
    (hlim : s.limit ≤ 12) (hstart : s.start = 0) (hsearch : s.searchValue = none)
    (hfetch : s.data = [] ∨ force = true) (hpage : 1 ≤ s.page) :
    (s.type = ListType.paginated →
      (ListComponent.refresh s matchFn (some full) force).1.items
        = jsSlice full ((s.page - 1) * s.limit) (s.page * s.limit))
    ∧ (s.type = ListType.infinite → s.items = full.take ((s.page - 1) * s.limit) →
      (ListComponent.refresh s matchFn (some full) force).1.items
        = full.take (s.page * s.limit)
      ∧ (ListComponent.refresh s matchFn (some full) force).1.items.length
          ≤ s.page * s.limit) := by
  have hstop : (if 12 < s.limit then 12 else s.limit) = s.limit := by
    rw [if_neg (by omega)]
  have hstart2 : (if 1 < s.page then (s.page - 1) * s.limit else s.start)
      = (s.page - 1) * s.limit := by
    by_cases h : 1 < s.page
    · rw [if_pos h]
    · rw [if_neg h, hstart]
      have hp1 : s.page = 1 := by omega
      rw [hp1]
      simp
  have hrefresh : (ListComponent.refresh s matchFn (some full) force).1.items
      = (ListComponent.getFromRequest { s with refreshing := true } matchFn (some full)
          force ((s.page - 1) * s.limit) (s.page * s.limit)).1.items := by
    unfold ListComponent.refresh
    dsimp only
    rw [hstart2, hstop]
    repeat' split
    all_goals rfl
  have hcore := getFromRequest_items ({ s with refreshing := true }) matchFn full force
      ((s.page - 1) * s.limit) (s.page * s.limit) hsearch hfetch
  constructor
  · intro htype
    rw [hrefresh, hcore, if_neg (by simp [htype])]
  · intro htype hprev
    have hab : (s.page - 1) * s.limit ≤ s.page * s.limit :=
      Nat.mul_le_mul_right s.limit (by omega)
    have hitems : (ListComponent.refresh s matchFn (some full) force).1.items
        = full.take (s.page * s.limit) := by
      rw [hrefresh, hcore, if_pos (by simp [htype])]
      show s.items ++ jsSlice full ((s.page - 1) * s.limit) (s.page * s.limit)
          = full.take (s.page * s.limit)
      rw [hprev, take_append_slice full _ _ hab]
    refine ⟨hitems, ?_⟩
    rw [hitems, List.length_take]
    exact Nat.min_le_left _ _

theorem c1_witness :
    (ListComponent.refresh
        ({ type := ListType.paginated, page := 2, limit := 5,
           data := [99, 98, 97] } : ListState Nat)
        (fun _ _ => false) (some (List.range 12)) true).1.items
      = jsSlice (List.range 12) 5 10 := by
  have h := (c1_slice_amended
      ({ type := ListType.paginated, page := 2, limit := 5,
         data := [99, 98, 97] } : ListState Nat)
      (fun _ _ => false) (List.range 12) true (by decide) rfl rfl (Or.inr rfl)
      (by decide)).1 rfl
  exact h

theorem debounceTime_subset {α : Type} (w : Nat) (l : List (Nat × α)) :
    ∀ e ∈ debounceTime w l, e ∈ l := by
  induction l with
  | nil => simp [debounceTime]
  | cons a rest ih =>
    cases rest with
    | nil => simp [debounceTime]
    | cons b rest2 =>
      intro e he
      simp only [debounceTime] at he
      by_cases hc : b.1 < a.1 + w
      · rw [if_pos hc] at he
        exact List.mem_cons_of_mem a (ih e he)
      · rw [if_neg hc] at he
        rcases List.mem_cons.mp he with h | h
        · rw [h]
          exact List.mem_cons_self _ _
        · exact List.mem_cons_of_mem a (ih e h)

theorem debounceTime_burst {α : Type} (w : Nat) (l : List (Nat × α)) (e : Nat × α)
    (hlast : l.getLast? = some e) (hb : burstWithin w l = true) :
    debounceTime w l = [e] := by
  induction l with
  | nil => simp at hlast
  | cons a rest ih =>
    cases rest with
    | nil =>
      simp at hlast
      simp [debounceTime, hlast]
    | cons b rest2 =>
      have hb2 : b.1 < a.1 + w ∧ burstWithin w (b :: rest2) = true := by
        simpa [burstWithin] using hb
      have hlast2 : (b :: rest2).getLast? = some e := by
        simpa [List.getLast?_cons_cons] using hlast
      simp only [debounceTime, if_pos hb2.1]
      exact ih hlast2 hb2.2

theorem debounceTime_head_ge {α : Type} (w : Nat) (l : List (Nat × α))
    (hs : timeSorted l = true) :
    ∀ d ∈ (debounceTime w l).head?, ∀ a2 ∈ l.head?, a2.1 ≤ d.1 := by
  induction l with
  | nil => simp [debounceTime]
  | cons a rest ih =>
    cases rest with
    | nil =>
      intro d hd a2 ha2
      have hde : a = d := by simpa [debounceTime] using hd
      have ha2e : a = a2 := by simpa using ha2
      have h1 : a.1 = d.1 := congrArg Prod.fst hde
      have h2 : a.1 = a2.1 := congrArg Prod.fst ha2e
      omega
    | cons b rest2 =>
      have hs2 : a.1 ≤ b.1 ∧ timeSorted (b :: rest2) = true := by
        simpa [timeSorted] using hs
      intro d hd a2 ha2
      have ha2e : a = a2 := by simpa using ha2
      have h2 : a.1 = a2.1 := congrArg Prod.fst ha2e
      by_cases hc : b.1 < a.1 + w
      · have hd2 : d ∈ (debounceTime w (b :: rest2)).head? := by
          simpa [debounceTime, hc] using hd
        have hby := ih hs2.2 d hd2 b (by simp)
        omega
      · have hde : a = d := by
          simpa [debounceTime, hc] using hd
        have h1 : a.1 = d.1 := congrArg Prod.fst hde
        omega

theorem debounceTime_spaced {α : Type} (w : Nat) (l : List (Nat × α))
    (hs : timeSorted l = true) :
    List.Chain' (fun a b => a.1 + w ≤ b.1) (debounceTime w l) := by
  induction l with
  | nil => simp [debounceTime]
  | cons a rest ih =>
    cases rest with
    | nil => simp [debounceTime]
    | cons b rest2 =>
      have hs2 : a.1 ≤ b.1 ∧ timeSorted (b :: rest2) = true := by
        simpa [timeSorted] using hs
      by_cases hc : b.1 < a.1 + w
      · simpa [debounceTime, hc] using ih hs2.2
      · rw [show debounceTime w (a :: b :: rest2) = a :: debounceTime w (b :: rest2) by
            simp [debounceTime, hc]]
        refine List.chain'_cons'.mpr ⟨?_, ih hs2.2⟩
        intro d hd
        have hbd := debounceTime_head_ge w (b :: rest2) hs2.2 d hd b (by simp)
        omega

/-- C8: debouncing coalesces bursts: a nonempty sequence of clicks whose
events all arrive strictly within the 100 ms click debounce window of their
predecessor produces exactly one emission, the last click of the burst; a
debounced emission is always one of the received events; and for the
searchbar's 500 ms window, consecutive dispatches of a time-sorted event
sequence are at least 500 ms apart, so at most one search is dispatched per
window. -/
theorem c8_debounce_coalesces (l : List (Nat × Nat)) :
    (∀ e, l.getLast? = some e → burstWithin ListComponent.clickDebounceTime l = true →
        debounceTime ListComponent.clickDebounceTime l = [e])
    ∧ (∀ e, e ∈ debounceTime ListComponent.clickDebounceTime l → e ∈ l)
    ∧ (timeSorted l = true →
        List.Chain' (fun a b => a.1 + SearchbarComponent.debounce ≤ b.1)
          (debounceTime SearchbarComponent.debounce l)) :=
  ⟨fun e hl hb => debounceTime_burst ListComponent.clickDebounceTime l e hl hb,
   fun e he => debounceTime_subset ListComponent.clickDebounceTime l e he,
   fun hs => debounceTime_spaced SearchbarComponent.debounce l hs⟩

theorem c8_witness :
    debounceTime ListComponent.clickDebounceTime [(0, 10), (50, 20), (70, 30)] = [(70, 30)]
    ∧ ((70, 30) ∈ ([(0, 10), (50, 20), (70, 30)] : List (Nat × Nat)))
    ∧ List.Chain' (fun a b => a.1 + SearchbarComponent.debounce ≤ b.1)
        (debounceTime SearchbarComponent.debounce [(0, 10), (50, 20), (70, 30)]) :=
  ⟨(c8_debounce_coalesces [(0, 10), (50, 20), (70, 30)]).1 (70, 30) (by decide) (by decide),
   (c8_debounce_coalesces [(0, 10), (50, 20), (70, 30)]).2.1 (70, 30) (by decide),
   (c8_debounce_coalesces [(0, 10), (50, 20), (70, 30)]).2.2 (by decide)⟩
